import Mathlib

/-!
# Verification of the vgs-satellite core against its specification

Shallow embedding of the repository's connection-routing logic
(`satellite/proxy/server.py`), the alias store contract
(`satellite/aliases/store.py`, modelled — see below), and the process
configuration loader (`satellite/config.py`, modelled), together with
theorems settling the spec's claims about them.
-/

namespace Satellite

/-! ## Connection router: `satellite/proxy/server.py`

`ProxyServer.handle_client_connection(conn, client_address)`:

```
config = self.config
if ctx.proxy_mode == ProxyMode.REVERSE:
    upstream = self._get_upstream()
    if upstream:
        options = copy(self.config.options)
        options.mode = f'reverse:<upstream>'
        config = ProxyConfig(options)
handler = ConnectionHandler(conn, client_address, config, self.channel)
handler.handle()
```

`_get_upstream` opens a session (one repository read), fetches all
INBOUND routes and returns `routes and routes[0].destination_override_endpoint`
(Python truthiness: an empty route list, a `None` endpoint and an empty-string
endpoint are all falsy).

The embedding makes Python's object heap explicit, because the claims are
about mutation and aliasing of the shared default configuration: `Options`
objects live on a heap addressed by `Nat`; `copy(...)` allocates a fresh
address holding the same value; attribute assignment writes at an address.
The mitmproxy options object has many fields besides `mode`; they are
abstracted as one field `rest` of an arbitrary type `α`, so "every field
other than `mode`" is exactly `rest`. -/

inductive ProxyMode where
  | forward
  | reverse
deriving DecidableEq, Repr

/-- A persisted Route record, as read back by `RouteManager.get_all_by_type`.
Only the fields the router consults are modelled. -/
structure Route where
  id : Nat
  destination_override_endpoint : Option String
deriving DecidableEq, Repr

/-- A mitmproxy options object: the `mode` field, which the router rewrites,
plus all remaining fields abstracted as `rest`. -/
structure Options (α : Type) where
  mode : String
  rest : α
deriving DecidableEq, Repr

/-- The state `handle_client_connection` runs against: the proxy mode
(`ctx.proxy_mode`), the heap of `Options` objects with its allocation
frontier `nextAddr`, the address `configRef` of the shared default
configuration's options (`self.config.options`), the persisted INBOUND
routes the repository would return, and a counter of repository reads
(each `session_scope()` entered by `_get_upstream`). -/
structure ServerState (α : Type) where
  proxy_mode : ProxyMode
  heap : Nat → Options α
  nextAddr : Nat
  configRef : Nat
  routes : List Route
  repoReads : Nat

/-- Write an `Options` value at a heap address. -/
def heapWrite (h : Nat → Options α) (r : Nat) (o : Options α) : Nat → Options α :=
  fun a => if a = r then o else h a

/-- The value of `routes and routes[0].destination_override_endpoint`:
`none` stands for the falsy empty-list result as well as a `None`
endpoint attribute; a `some ""` result is falsy at the `if upstream:`
check in the caller. -/
def get_upstream (routes : List Route) : Option String :=
  match routes with
  | [] => none
  | r :: _ => r.destination_override_endpoint

/-- `ProxyServer.handle_client_connection`, returning the successor state
and the heap address of the options of the configuration handed to
`ConnectionHandler`. In reverse mode `_get_upstream` performs one
repository read; a truthy upstream makes the router copy the default's
options to a fresh address and rewrite `mode` there. -/
def handle_client_connection (s : ServerState α) : ServerState α × Nat :=
  if s.proxy_mode = ProxyMode.reverse then
    let s₁ : ServerState α := { s with repoReads := s.repoReads + 1 }
    match get_upstream s.routes with
    | some u =>
      if u = "" then
        (s₁, s₁.configRef)
      else
        let o := s₁.heap s₁.configRef
        let newRef := s₁.nextAddr
        let h₁ := heapWrite s₁.heap newRef o
        let h₂ := heapWrite h₁ newRef { o with mode := "reverse:" ++ u }
        ({ s₁ with heap := h₂, nextAddr := s₁.nextAddr + 1 }, newRef)
    | none => (s₁, s₁.configRef)
  else
    (s, s.configRef)

/-- `n` consecutive connections handled against the evolving state. -/
def handleN (n : Nat) (s : ServerState α) : ServerState α :=
  match n with
  | 0 => s
  | n + 1 => handleN n (handle_client_connection s).1

/-! ## Alias store

Modelled from the spec: `satellite/aliases/store.py` is not under `src/`;
only its tests (`satellite/tests/aliases/test_store.py`) are. `save`,
`cleanup` and the record shape follow spec section 4.1 and section 3
("Alias"); the read-time liveness filter follows the repository's own
tests, which pin the behaviour the spec leaves to the implementation:
`test_get_by_value_with_ttl` and `test_get_by_alias_with_ttl` assert that
a store handle constructed with no TTL returns `None` for a volatile
(TTL-saved) record even while it is unexpired, so a TTL-`none` handle
filters for rows whose `expires_at` is null, while a handle holding any
finite TTL filters for rows whose stored `expires_at` lies strictly in
the future. Timestamps are integers (seconds); `now` is passed
explicitly. The table is the list of stored rows in insertion order. -/

/-- An Alias row (`satellite/db/models/alias.py`): original value, public
alias, the generator tag stored verbatim, and the nullable expiry
computed once at save time. -/
structure Alias where
  id : Nat
  value : String
  public_alias : String
  alias_generator : String
  expires_at : Option Int
deriving DecidableEq, Repr

/-- A store handle: `AliasStore(ttl)`. `ttl = none` is the persistent
handle `AliasStore()`. -/
structure AliasStore where
  ttl : Option Int
deriving DecidableEq, Repr

/-- `DuplicateKeyError`: save violates uniqueness on `value` or
`public_alias` (spec section 7). -/
inductive StoreError where
  | duplicateKeyError
deriving DecidableEq, Repr

/-- The read-time row filter of a handle's lookup query (pinned by the
tests, see the section comment): a persistent handle sees exactly the
never-expiring rows; a TTL handle sees exactly the rows whose stored
expiry is strictly in the future. -/
def is_live (store : AliasStore) (now : Int) (a : Alias) : Bool :=
  match store.ttl with
  | none => a.expires_at = none
  | some _ =>
    match a.expires_at with
    | none => false
    | some e => now < e

/-- `AliasStore.save(alias)`: rejects with `DuplicateKeyError` when any
stored row (expired or not) already holds the same `value` or the same
`public_alias`; otherwise stamps `expires_at` once from the handle's TTL
(`none` → persistent; `some t` → `now + t`, so a non-positive `t` is born
expired) and appends the row. -/
def save (store : AliasStore) (table : List Alias) (now : Int) (a : Alias) :
    Except StoreError (List Alias) :=
  if table.any (fun b => b.value = a.value || b.public_alias = a.public_alias) then
    .error .duplicateKeyError
  else
    .ok (table ++ [{ a with expires_at := store.ttl.map (fun t => now + t) }])

/-- `AliasStore.get_by_value(value)`: first row matching on the `value`
column that passes the handle's liveness filter. -/
def get_by_value (store : AliasStore) (table : List Alias) (now : Int) (v : String) :
    Option Alias :=
  table.find? (fun a => a.value = v && is_live store now a)

/-- `AliasStore.get_by_alias(public_alias)`: symmetric lookup keyed on
the `public_alias` column. -/
def get_by_alias (store : AliasStore) (table : List Alias) (now : Int) (p : String) :
    Option Alias :=
  table.find? (fun a => a.public_alias = p && is_live store now a)

/-- A row `cleanup` deletes: non-null `expires_at` that is `≤ now`. -/
def is_expired_row (now : Int) (a : Alias) : Bool :=
  match a.expires_at with
  | none => false
  | some e => e ≤ now

/-- `AliasStore.cleanup()`: deletes every row whose `expires_at` is
non-null and `≤ now` across the whole table, returning the remaining
table and the number of rows removed. -/
def cleanup (table : List Alias) (now : Int) : List Alias × Nat :=
  (table.filter (fun a => !is_expired_row now a),
   (table.filter (is_expired_row now)).length)

/-! ## Process configuration loader

Modelled from the spec: `satellite/config.py` is not under `src/`; only
its tests (`satellite/tests/test_config.py`) are, and the spec treats
process configuration loading as an external collaborator. The model
follows the tests: `configure(config_path?, **kwargs)` starts from the
default-valued `SatelliteConfig` dataclass, overlays the YAML config
file's mapping, then overlays the keyword arguments, and raises
`InvalidConfigError` when the file is unparsable YAML, when a file field
holds a value of the wrong type, or when a keyword argument holds a
value of the wrong type. A parsed YAML scalar is modelled as a
`ConfigValue`; the file is either `malformed` (unparsable) or a
key-value mapping. -/

inductive ConfigValue where
  | str (s : String)
  | num (n : Nat)
  | flag (b : Bool)
  | null
deriving DecidableEq, Repr

/-- The `SatelliteConfig` dataclass fields, with the types of
`DEFAULT_CONFIG_VALUES` in `test_config.py`. -/
structure SatelliteConfig where
  db_path : String
  debug : Bool
  forward_proxy_port : Nat
  larky_debug_server_host : String
  larky_debug_server_port : Nat
  larky_gateway_host : String
  larky_gateway_port : Nat
  log_level : String
  log_path : Option String
  reverse_proxy_port : Nat
  routes_path : Option String
  silent : Bool
  volatile_aliases_ttl : Nat
  web_server_port : Nat
deriving DecidableEq, Repr

/-- `InvalidConfigError`. -/
inductive ConfigError where
  | invalidConfigError
deriving DecidableEq, Repr

/-- The default-valued configuration (`DEFAULT_CONFIG_VALUES`). -/
def defaultConfig : SatelliteConfig where
  db_path := "~/.vgs-satellite/db.sqlite"
  debug := false
  forward_proxy_port := 9099
  larky_debug_server_host := "localhost"
  larky_debug_server_port := 7300
  larky_gateway_host := "localhost"
  larky_gateway_port := 50051
  log_level := "INFO"
  log_path := none
  reverse_proxy_port := 9098
  routes_path := none
  silent := false
  volatile_aliases_ttl := 3600
  web_server_port := 8089

/-- Assign one configuration field from a parsed value; `none` when the
key is unknown or the value's type does not fit the field. -/
def setField (c : SatelliteConfig) (k : String) (v : ConfigValue) :
    Option SatelliteConfig :=
  match k, v with
  | "db_path", .str s => some { c with db_path := s }
  | "debug", .flag b => some { c with debug := b }
  | "forward_proxy_port", .num n => some { c with forward_proxy_port := n }
  | "larky_debug_server_host", .str s => some { c with larky_debug_server_host := s }
  | "larky_debug_server_port", .num n => some { c with larky_debug_server_port := n }
  | "larky_gateway_host", .str s => some { c with larky_gateway_host := s }
  | "larky_gateway_port", .num n => some { c with larky_gateway_port := n }
  | "log_level", .str s => some { c with log_level := s }
  | "log_path", .str s => some { c with log_path := some s }
  | "log_path", .null => some { c with log_path := none }
  | "reverse_proxy_port", .num n => some { c with reverse_proxy_port := n }
  | "routes_path", .str s => some { c with routes_path := some s }
  | "routes_path", .null => some { c with routes_path := none }
  | "silent", .flag b => some { c with silent := b }
  | "volatile_aliases_ttl", .num n => some { c with volatile_aliases_ttl := n }
  | "web_server_port", .num n => some { c with web_server_port := n }
  | _, _ => none

/-- A parsed config file: unparsable, or a mapping of fields to values. -/
inductive YamlDoc where
  | malformed
  | fields (entries : List (String × ConfigValue))

/-- Overlay a list of key-value bindings onto a configuration,
failing with `InvalidConfigError` on the first ill-typed binding. -/
def applyEntries (c : SatelliteConfig) :
    List (String × ConfigValue) → Except ConfigError SatelliteConfig
  | [] => .ok c
  | (k, v) :: rest =>
    match setField c k v with
    | none => .error .invalidConfigError
    | some c' => applyEntries c' rest

/-- `configure(config_path?, **kwargs)`: defaults, overlaid by the config
file when one exists, overlaid by the keyword arguments; every failure
surfaces as `InvalidConfigError`. -/
def configure (fileDoc : Option YamlDoc) (kwargs : List (String × ConfigValue)) :
    Except ConfigError SatelliteConfig :=
  match fileDoc with
  | some .malformed => .error .invalidConfigError
  | some (.fields entries) =>
    match applyEntries defaultConfig entries with
    | .error e => .error e
    | .ok c => applyEntries c kwargs
  | none => applyEntries defaultConfig kwargs

/-! ## Concrete sample states used by the witness theorems -/

/-- A concrete default options object (`mode` plus one abstracted field). -/
def demoOptions : Options Nat where
  mode := "regular"
  rest := 7

/-- A concrete reverse-mode server state with no routes; witness states
are built from it by field update. -/
def sBase : ServerState Nat where
  proxy_mode := .reverse
  heap := fun _ => demoOptions
  nextAddr := 1
  configRef := 0
  routes := []
  repoReads := 0

/-- A concrete reverse-mode state whose single INBOUND route carries a
present but malformed override endpoint (spaces, no host:port shape). -/
def sMalformed : ServerState Nat :=
  { sBase with routes := [{ id := 1, destination_override_endpoint := some "not a valid endpoint" }] }

/-- A concrete alias row as the tests build it (`make_alias`). -/
def demoAlias : Alias where
  id := 1
  value := "4111-1111-1111-1111"
  public_alias := "public_4111-1111-1111-1111"
  alias_generator := "UUID"
  expires_at := none

/-- A second concrete alias row with distinct keys. -/
def demoAlias2 : Alias where
  id := 2
  value := "5500-0000-0000-0004"
  public_alias := "public_5500-0000-0000-0004"
  alias_generator := "UUID"
  expires_at := none

/-- A concrete table for the cleanup witness: one persistent row, one row
expiring in the future, one already-expired row (the `test_cleanup`
scenario read at time 10 with the volatile rows stamped at time 0 by
TTL 60 and TTL -1 handles). -/
def demoTable : List Alias :=
  [{ demoAlias with expires_at := none },
   { demoAlias2 with expires_at := some 60 },
   { id := 3, value := "v3", public_alias := "p3", alias_generator := "UUID",
     expires_at := some (-1) }]

/-! ## Helper lemmas about the router -/

/-- Branch equation: outside reverse mode the call is a pure
pass-through of the state and the default configuration. -/
theorem handle_eq_not_reverse (s : ServerState α)
    (h : s.proxy_mode ≠ ProxyMode.reverse) :
    handle_client_connection s = (s, s.configRef) := by
  unfold handle_client_connection
  rw [if_neg h]

/-- Branch equation: reverse mode with a falsy `None`/empty-list upstream
result only performs the repository read. -/
theorem handle_eq_upstream_none (s : ServerState α)
    (hmode : s.proxy_mode = ProxyMode.reverse)
    (hup : get_upstream s.routes = none) :
    handle_client_connection s
      = ({ s with repoReads := s.repoReads + 1 }, s.configRef) := by
  unfold handle_client_connection
  rw [if_pos hmode, hup]

/-- Branch equation: reverse mode with an empty-string upstream is falsy
at the `if upstream:` check and only performs the repository read. -/
theorem handle_eq_upstream_empty (s : ServerState α)
    (hmode : s.proxy_mode = ProxyMode.reverse)
    (hup : get_upstream s.routes = some "") :
    handle_client_connection s
      = ({ s with repoReads := s.repoReads + 1 }, s.configRef) := by
  unfold handle_client_connection
  rw [if_pos hmode, hup]
  rfl

/-- Branch equation: reverse mode with a truthy upstream copies the
default's options to the fresh address, rewrites `mode` there, and
hands that address over. -/
theorem handle_eq_override (s : ServerState α) (u : String)
    (hmode : s.proxy_mode = ProxyMode.reverse)
    (hup : get_upstream s.routes = some u) (hu : u ≠ "") :
    handle_client_connection s
      = ({ s with
            repoReads := s.repoReads + 1
            nextAddr := s.nextAddr + 1
            heap := heapWrite (heapWrite s.heap s.nextAddr (s.heap s.configRef))
              s.nextAddr { s.heap s.configRef with mode := "reverse:" ++ u } },
         s.nextAddr) := by
  unfold handle_client_connection
  rw [if_pos hmode, hup]
  simp only [if_neg hu]

/-- One `handle_client_connection` call never touches `configRef`, never
shrinks the allocation frontier, and never writes at an already
allocated address. -/
theorem handle_preserves (s : ServerState α) :
    (handle_client_connection s).1.configRef = s.configRef ∧
    s.nextAddr ≤ (handle_client_connection s).1.nextAddr ∧
    ∀ a, a < s.nextAddr → (handle_client_connection s).1.heap a = s.heap a := by
  by_cases hmode : s.proxy_mode = ProxyMode.reverse
  · rcases hup : get_upstream s.routes with _ | u
    · rw [handle_eq_upstream_none s hmode hup]
      exact ⟨rfl, le_refl _, fun a _ => rfl⟩
    · by_cases hu : u = ""
      · subst hu
        rw [handle_eq_upstream_empty s hmode hup]
        exact ⟨rfl, le_refl _, fun a _ => rfl⟩
      · rw [handle_eq_override s u hmode hup hu]
        refine ⟨rfl, Nat.le_succ _, fun a ha => ?_⟩
        simp only [heapWrite, if_neg (Nat.ne_of_lt ha)]
  · rw [handle_eq_not_reverse s hmode]
    exact ⟨rfl, le_refl _, fun a _ => rfl⟩

/-- Addresses allocated before a run of connections keep their contents
across the whole run. -/
theorem handleN_heap_below (n : Nat) :
    ∀ (s : ServerState α) (a : Nat), a < s.nextAddr →
      (handleN n s).heap a = s.heap a := by
  induction n with
  | zero => intro s a _; rfl
  | succ n ih =>
    intro s a ha
    have h := handle_preserves s
    have : (handleN (n + 1) s).heap a
        = (handleN n (handle_client_connection s).1).heap a := rfl
    rw [this, ih _ a (lt_of_lt_of_le ha h.2.1), h.2.2 a ha]

/-! ## Router claims -/

/-- Claim C1: for every connection handled while the proxy operates in
reverse mode, if the route repository returns a non-empty sequence of
INBOUND routes and the first route's `destination_override_endpoint` is
non-null and non-empty, then `handle_client_connection` hands the
connection handler a configuration whose `options.mode` equals exactly
`reverse:<that endpoint>`. -/
theorem reverse_mode_first_route_override (s : ServerState α) (r : Route)
    (rest : List Route) (u : String)
    (hmode : s.proxy_mode = ProxyMode.reverse)
    (hroutes : s.routes = r :: rest)
    (hdest : r.destination_override_endpoint = some u)
    (hne : u ≠ "") :
    ((handle_client_connection s).1.heap (handle_client_connection s).2).mode
      = "reverse:" ++ u := by
  have hup : get_upstream s.routes = some u := by rw [hroutes]; exact hdest
  rw [handle_eq_override s u hmode hup hne]
  simp [heapWrite]

/-- A concrete reverse-mode state whose single INBOUND route carries a
well-formed override endpoint. -/
def sOverride : ServerState Nat :=
  { sBase with
      routes := [{ id := 2, destination_override_endpoint := some "upstream.example:8080" }] }

/-- Witness for claim C1 at the concrete state `sOverride`. -/
theorem reverse_mode_first_route_override_witness :
    ((handle_client_connection sOverride).1.heap (handle_client_connection sOverride).2).mode
      = "reverse:" ++ "upstream.example:8080" :=
  reverse_mode_first_route_override sOverride
    { id := 2, destination_override_endpoint := some "upstream.example:8080" } []
    "upstream.example:8080" rfl rfl rfl (by decide)

/-- Claim C4: the connection handler receives the default configuration
unchanged whenever (a) the proxy is not in reverse mode — then no
repository read happens and the state is untouched — or (b) the INBOUND
route sequence is empty, or (c) the first INBOUND route's endpoint is
null or empty; and only the first route of the returned order is ever
consulted (the routing outcome is invariant under changing the tail). -/
theorem default_config_passthrough (s : ServerState α) :
    (s.proxy_mode ≠ ProxyMode.reverse →
      handle_client_connection s = (s, s.configRef)) ∧
    (s.proxy_mode = ProxyMode.reverse → s.routes = [] →
      handle_client_connection s
        = ({ s with repoReads := s.repoReads + 1 }, s.configRef)) ∧
    (∀ r rest, s.proxy_mode = ProxyMode.reverse → s.routes = r :: rest →
      (r.destination_override_endpoint = none ∨
        r.destination_override_endpoint = some "") →
      handle_client_connection s
        = ({ s with repoReads := s.repoReads + 1 }, s.configRef)) ∧
    (∀ (r : Route) (l₁ l₂ : List Route),
      (handle_client_connection { s with routes := r :: l₁ }).1.heap
        = (handle_client_connection { s with routes := r :: l₂ }).1.heap ∧
      (handle_client_connection { s with routes := r :: l₁ }).2
        = (handle_client_connection { s with routes := r :: l₂ }).2 ∧
      (handle_client_connection { s with routes := r :: l₁ }).1.repoReads
        = (handle_client_connection { s with routes := r :: l₂ }).1.repoReads) := by
  refine ⟨fun hm => handle_eq_not_reverse s hm, ?_, ?_, ?_⟩
  · intro hm hr
    exact handle_eq_upstream_none s hm (by rw [hr]; rfl)
  · intro r rest hm hr hd
    rcases hd with hd | hd
    · exact handle_eq_upstream_none s hm (by rw [hr]; exact hd)
    · exact handle_eq_upstream_empty s hm (by rw [hr]; exact hd)
  · intro r l₁ l₂
    by_cases hm : s.proxy_mode = ProxyMode.reverse
    · rcases hd : r.destination_override_endpoint with _ | u
      · rw [handle_eq_upstream_none { s with routes := r :: l₁ } hm hd,
            handle_eq_upstream_none { s with routes := r :: l₂ } hm hd]
        exact ⟨rfl, rfl, rfl⟩
      · by_cases hu : u = ""
        · subst hu
          rw [handle_eq_upstream_empty { s with routes := r :: l₁ } hm hd,
              handle_eq_upstream_empty { s with routes := r :: l₂ } hm hd]
          exact ⟨rfl, rfl, rfl⟩
        · rw [handle_eq_override { s with routes := r :: l₁ } u hm hd hu,
              handle_eq_override { s with routes := r :: l₂ } u hm hd hu]
          exact ⟨rfl, rfl, rfl⟩
    · rw [handle_eq_not_reverse { s with routes := r :: l₁ } hm,
          handle_eq_not_reverse { s with routes := r :: l₂ } hm]
      exact ⟨rfl, rfl, rfl⟩

/-- A concrete forward-mode state. -/
def sFwd : ServerState Nat := { sBase with proxy_mode := .forward }

/-- A concrete reverse-mode state whose single INBOUND route has a null
override endpoint. -/
def sRouteNone : ServerState Nat :=
  { sBase with routes := [{ id := 4, destination_override_endpoint := none }] }

/-- Witness for claim C4: the forward-mode, empty-routes and
null-endpoint cases at concrete states. -/
theorem default_config_passthrough_witness :
    handle_client_connection sFwd = (sFwd, sFwd.configRef) ∧
    handle_client_connection sBase
      = ({ sBase with repoReads := sBase.repoReads + 1 }, sBase.configRef) ∧
    handle_client_connection sRouteNone
      = ({ sRouteNone with repoReads := sRouteNone.repoReads + 1 }, sRouteNone.configRef) :=
  ⟨(default_config_passthrough sFwd).1 (by decide),
   (default_config_passthrough sBase).2.1 rfl rfl,
   (default_config_passthrough sRouteNone).2.2.1
     { id := 4, destination_override_endpoint := none } [] rfl rfl (Or.inl rfl)⟩

/-- Claim C5: whenever the router produces an override configuration, it
is built from a value-copy of the default's options in which only `mode`
changes (`rest` — every field other than `mode` — equals the default's),
and the shared default configuration's options are never mutated, over
any number of handled connections. -/
theorem override_copies_default (s : ServerState α)
    (hwf : s.configRef < s.nextAddr) :
    (handle_client_connection s).1.heap s.configRef = s.heap s.configRef ∧
    ((handle_client_connection s).2 ≠ s.configRef →
      ((handle_client_connection s).1.heap (handle_client_connection s).2).rest
        = (s.heap s.configRef).rest) ∧
    ∀ n, (handleN n s).heap s.configRef = s.heap s.configRef := by
  refine ⟨(handle_preserves s).2.2 _ hwf, ?_, fun n => handleN_heap_below n s _ hwf⟩
  intro hne
  by_cases hmode : s.proxy_mode = ProxyMode.reverse
  · rcases hup : get_upstream s.routes with _ | u
    · rw [handle_eq_upstream_none s hmode hup] at hne
      exact absurd rfl hne
    · by_cases hu : u = ""
      · subst hu
        rw [handle_eq_upstream_empty s hmode hup] at hne
        exact absurd rfl hne
      · rw [handle_eq_override s u hmode hup hu]
        simp [heapWrite]
  · rw [handle_eq_not_reverse s hmode] at hne
    exact absurd rfl hne

/-- Witness for claim C5 at the concrete state `sOverride` (an override
is actually produced there), including three consecutive connections. -/
theorem override_copies_default_witness :
    (handle_client_connection sOverride).1.heap sOverride.configRef
      = sOverride.heap sOverride.configRef ∧
    ((handle_client_connection sOverride).1.heap
        (handle_client_connection sOverride).2).rest
      = (sOverride.heap sOverride.configRef).rest ∧
    (handleN 3 sOverride).heap sOverride.configRef
      = sOverride.heap sOverride.configRef :=
  ⟨(override_copies_default sOverride (by decide)).1,
   (override_copies_default sOverride (by decide)).2.1 (by decide),
   (override_copies_default sOverride (by decide)).2.2 3⟩

/-- Claim C9 counterexample: the first INBOUND route's endpoint is
present but malformed (`"not a valid endpoint"` — spaces, not a
host:port authority), yet the router does not fall back to the default
configuration: it hands over a fresh configuration that embeds the
malformed endpoint verbatim in its mode. -/
theorem malformed_endpoint_not_ignored :
    (handle_client_connection sMalformed).2 ≠ sMalformed.configRef ∧
    ((handle_client_connection sMalformed).1.heap
        (handle_client_connection sMalformed).2).mode
      = "reverse:not a valid endpoint" ∧
    ((handle_client_connection sMalformed).1.heap
        (handle_client_connection sMalformed).2).mode
      ≠ (sMalformed.heap sMalformed.configRef).mode :=
  ⟨by decide, by decide, by decide⟩

/-- Claim C9 (amended): the router applies no validation to a present
override endpoint. Only a null or empty first-route
`destination_override_endpoint` is treated as no-override (default
configuration handed over unchanged); every non-empty endpoint string,
well-formed or malformed, is embedded verbatim as mode
`reverse:<endpoint>` in the per-connection configuration. -/
theorem endpoint_truthiness_only (s : ServerState α) (r : Route)
    (rest : List Route)
    (hmode : s.proxy_mode = ProxyMode.reverse)
    (hroutes : s.routes = r :: rest) :
    (r.destination_override_endpoint = none →
      handle_client_connection s
        = ({ s with repoReads := s.repoReads + 1 }, s.configRef)) ∧
    (r.destination_override_endpoint = some "" →
      handle_client_connection s
        = ({ s with repoReads := s.repoReads + 1 }, s.configRef)) ∧
    ∀ u, r.destination_override_endpoint = some u → u ≠ "" →
      ((handle_client_connection s).1.heap (handle_client_connection s).2).mode
        = "reverse:" ++ u := by
  refine ⟨?_, ?_, ?_⟩
  · intro hd
    exact handle_eq_upstream_none s hmode (by rw [hroutes]; exact hd)
  · intro hd
    exact handle_eq_upstream_empty s hmode (by rw [hroutes]; exact hd)
  · intro u hd hu
    rw [handle_eq_override s u hmode (by rw [hroutes]; exact hd) hu]
    simp [heapWrite]

/-- Witness for the amended claim C9 at the concrete state
`sMalformed`. -/
theorem endpoint_truthiness_only_witness :
    ((handle_client_connection sMalformed).1.heap
        (handle_client_connection sMalformed).2).mode
      = "reverse:" ++ "not a valid endpoint" :=
  (endpoint_truthiness_only sMalformed
      { id := 1, destination_override_endpoint := some "not a valid endpoint" } []
      rfl rfl).2.2 "not a valid endpoint" rfl (by decide)

/-! ## Helper lemmas about lists and the alias store -/

/-- Lookup over a table extended with one fresh row, when every existing
row fails the predicate. -/
theorem find_append_of_none {β : Type} {p : β → Bool} {l : List β}
    (h : ∀ b ∈ l, p b = false) (x : β) :
    (l ++ [x]).find? p = if p x then some x else none := by
  induction l with
  | nil =>
    simp only [List.nil_append, List.find?]
    cases hpx : p x <;> simp [hpx]
  | cons hd tl ih =>
    have hhd := h hd (List.mem_cons_self hd tl)
    rw [List.cons_append, List.find?_cons_of_neg _ (by simp [hhd])]
    exact ih fun b hb => h b (List.mem_cons_of_mem hd hb)

/-- Splitting a list by a predicate preserves total length. -/
theorem length_filter_split {β : Type} (p : β → Bool) (l : List β) :
    (l.filter p).length + (l.filter fun b => !p b).length = l.length := by
  induction l with
  | nil => rfl
  | cons hd tl ih =>
    cases h : p hd <;> simp [List.filter_cons, h, ← ih] <;> omega

/-- Filtering by the complement of a predicate is idempotent. -/
theorem filter_not_idem {β : Type} (p : β → Bool) (l : List β) :
    ((l.filter fun b => !p b).filter fun b => !p b) = l.filter fun b => !p b := by
  induction l with
  | nil => rfl
  | cons hd tl ih =>
    cases h : p hd <;> simp [List.filter_cons, h, ih]

/-- No row satisfying a predicate survives filtering by its complement. -/
theorem filter_pos_of_filter_not {β : Type} (p : β → Bool) (l : List β) :
    (l.filter fun b => !p b).filter p = [] := by
  induction l with
  | nil => rfl
  | cons hd tl ih =>
    cases h : p hd <;> simp [List.filter_cons, h, ih]

/-- Inversion of a successful `save`: the new table is the old one with
the freshly stamped row appended, and no old row shared either key. -/
theorem save_ok_inv (store : AliasStore) (table : List Alias) (now : Int)
    (a : Alias) (table' : List Alias)
    (h : save store table now a = .ok table') :
    table' = table ++ [{ a with expires_at := store.ttl.map fun d => now + d }] ∧
    ∀ b ∈ table, b.value ≠ a.value ∧ b.public_alias ≠ a.public_alias := by
  unfold save at h
  by_cases hdup :
      table.any (fun b => b.value = a.value || b.public_alias = a.public_alias) = true
  · rw [if_pos hdup] at h
    exact absurd h (by simp)
  · rw [if_neg hdup] at h
    injection h with h
    refine ⟨h.symm, fun b hb => ?_⟩
    simp only [List.any_eq_true, not_exists] at hdup
    have := hdup b
    simp only [hb, Bool.or_eq_true, decide_eq_true_eq, not_or, true_and] at this
    exact ⟨(not_or.mp (by simpa using this)).1, (not_or.mp (by simpa using this)).2⟩

/-- The straight lookup on a table extended with one row whose `value`
column no old row shares. -/
theorem get_by_value_append_single (st : AliasStore) (table : List Alias)
    (T : Int) (a' : Alias) (v : String) (hv : a'.value = v)
    (h : ∀ b ∈ table, b.value ≠ v) :
    get_by_value st (table ++ [a']) T v
      = if is_live st T a' then some a' else none := by
  unfold get_by_value
  rw [find_append_of_none (fun b hb => ?_) a']
  · rw [show (decide (a'.value = v) && is_live st T a')
        = is_live st T a' by simp [hv]]
  · have : decide (b.value = v) = false := decide_eq_false (h b hb)
    rw [this, Bool.false_and]

/-- The straight lookup on a table extended with one row whose
`public_alias` column no old row shares. -/
theorem get_by_alias_append_single (st : AliasStore) (table : List Alias)
    (T : Int) (a' : Alias) (p : String) (hp : a'.public_alias = p)
    (h : ∀ b ∈ table, b.public_alias ≠ p) :
    get_by_alias st (table ++ [a']) T p
      = if is_live st T a' then some a' else none := by
  unfold get_by_alias
  rw [find_append_of_none (fun b hb => ?_) a']
  · rw [show (decide (a'.public_alias = p) && is_live st T a')
        = is_live st T a' by simp [hp]]
  · have : decide (b.public_alias = p) = false := decide_eq_false (h b hb)
    rw [this, Bool.false_and]

/-- A `value` lookup misses when no row in the table carries it. -/
theorem get_by_value_append_miss (st : AliasStore) (table : List Alias)
    (T : Int) (a' : Alias) (v : String) (hv : a'.value ≠ v)
    (h : ∀ b ∈ table, b.value ≠ v) :
    get_by_value st (table ++ [a']) T v = none := by
  unfold get_by_value
  rw [find_append_of_none (fun b hb => ?_) a']
  · rw [show decide (a'.value = v) = false from decide_eq_false hv, Bool.false_and]
    rfl
  · have : decide (b.value = v) = false := decide_eq_false (h b hb)
    rw [this, Bool.false_and]

/-- A `public_alias` lookup misses when no row in the table carries it. -/
theorem get_by_alias_append_miss (st : AliasStore) (table : List Alias)
    (T : Int) (a' : Alias) (p : String) (hp : a'.public_alias ≠ p)
    (h : ∀ b ∈ table, b.public_alias ≠ p) :
    get_by_alias st (table ++ [a']) T p = none := by
  unfold get_by_alias
  rw [find_append_of_none (fun b hb => ?_) a']
  · rw [show decide (a'.public_alias = p) = false from decide_eq_false hp,
      Bool.false_and]
    rfl
  · have : decide (b.public_alias = p) = false := decide_eq_false (h b hb)
    rw [this, Bool.false_and]

/-! ## Alias store claims -/

/-- Claim C2 counterexample (the `test_get_by_value_with_ttl` /
`test_get_by_alias_with_ttl` scenario): an alias saved at time 0 through
a TTL-60 handle is still unexpired at time 0, yet a handle constructed
with no TTL returns none for it — both by value and by public alias — so
the read result does depend on which handle's TTL performs the read. -/
theorem persistent_handle_misses_volatile_row :
    save { ttl := some 60 } [] 0 demoAlias
      = .ok [{ demoAlias with expires_at := some (0 + 60) }] ∧
    (0 : Int) < 0 + 60 ∧
    get_by_value { ttl := none } [{ demoAlias with expires_at := some (0 + 60) }] 0
      demoAlias.value = none ∧
    get_by_alias { ttl := none } [{ demoAlias with expires_at := some (0 + 60) }] 0
      demoAlias.public_alias = none :=
  ⟨rfl, by decide, rfl, rfl⟩

/-- Claim C2 (amended): for every alias saved through a handle with
positive TTL `t` at time `now`, a read through any handle configured
with a finite TTL (the saving handle or any other) returns the record at
every time strictly before `now + t` and none from `now + t` on; a
handle constructed with no TTL (persistent) returns none for the record
even while it is unexpired, because each lookup applies the reading
handle's own liveness filter. -/
theorem ttl_read_semantics (t t' now T : Int) (table table' : List Alias)
    (a : Alias) (_hpos : 0 < t)
    (hsave : save { ttl := some t } table now a = .ok table') :
    (T < now + t →
      get_by_value { ttl := some t' } table' T a.value
        = some { a with expires_at := some (now + t) } ∧
      get_by_alias { ttl := some t' } table' T a.public_alias
        = some { a with expires_at := some (now + t) }) ∧
    (now + t ≤ T →
      get_by_value { ttl := some t' } table' T a.value = none ∧
      get_by_alias { ttl := some t' } table' T a.public_alias = none) ∧
    (get_by_value { ttl := none } table' T a.value = none ∧
     get_by_alias { ttl := none } table' T a.public_alias = none) := by
  obtain ⟨htab, hnd⟩ := save_ok_inv _ _ _ _ _ hsave
  rw [show ((({ ttl := some t } : AliasStore)).ttl.map fun d => now + d)
      = some (now + t) from rfl] at htab
  subst htab
  have hval : ∀ st : AliasStore,
      get_by_value st (table ++ [{ a with expires_at := some (now + t) }]) T a.value
        = if is_live st T { a with expires_at := some (now + t) }
          then some { a with expires_at := some (now + t) } else none :=
    fun st => get_by_value_append_single st table T _ a.value rfl
      fun b hb => (hnd b hb).1
  have hpub : ∀ st : AliasStore,
      get_by_alias st (table ++ [{ a with expires_at := some (now + t) }]) T
          a.public_alias
        = if is_live st T { a with expires_at := some (now + t) }
          then some { a with expires_at := some (now + t) } else none :=
    fun st => get_by_alias_append_single st table T _ a.public_alias rfl
      fun b hb => (hnd b hb).2
  refine ⟨fun hT => ?_, fun hT => ?_, ?_⟩
  · rw [hval, hpub]
    simp [is_live, hT]
  · rw [hval, hpub]
    simp [is_live, not_lt.mpr hT]
  · rw [hval, hpub]
    simp [is_live]

/-- Witness for the amended claim C2 at the `test_get_by_value_with_ttl`
input: saved at time 0 with TTL 60, read at time 30 through a TTL handle
(hit) and through the persistent handle (miss). -/
theorem ttl_read_semantics_witness :
    get_by_value { ttl := some 60 }
        [{ demoAlias with expires_at := some (0 + 60) }] 30 demoAlias.value
      = some { demoAlias with expires_at := some (0 + 60) } ∧
    get_by_value { ttl := none }
        [{ demoAlias with expires_at := some (0 + 60) }] 30 demoAlias.value
      = none :=
  ⟨((ttl_read_semantics 60 60 0 30 []
      [{ demoAlias with expires_at := some (0 + 60) }] demoAlias
      (by decide) rfl).1 (by decide)).1,
   (ttl_read_semantics 60 60 0 30 []
      [{ demoAlias with expires_at := some (0 + 60) }] demoAlias
      (by decide) rfl).2.2.1⟩

/-- Claim C3: one `cleanup()` call keeps exactly the rows that are not
both non-null-expiry and past-due at call time, returns the number of
rows it deleted, never removes a persistent (null-expiry) row, and an
immediately following `cleanup()` removes nothing and returns 0. -/
theorem cleanup_exact (table : List Alias) (now : Int) :
    (∀ a, a ∈ (cleanup table now).1 ↔
      a ∈ table ∧ ∀ e, a.expires_at = some e → now < e) ∧
    (cleanup table now).2 + (cleanup table now).1.length = table.length ∧
    (∀ a ∈ table, a.expires_at = none → a ∈ (cleanup table now).1) ∧
    cleanup (cleanup table now).1 now = ((cleanup table now).1, 0) := by
  refine ⟨fun a => ?_, ?_, fun a ha hnone => ?_, ?_⟩
  · simp only [cleanup, List.mem_filter, Bool.not_eq_true']
    constructor
    · rintro ⟨ha, hexp⟩
      refine ⟨ha, fun e he => ?_⟩
      rw [is_expired_row, he] at hexp
      simpa using hexp
    · rintro ⟨ha, hall⟩
      refine ⟨ha, ?_⟩
      unfold is_expired_row
      cases hcase : a.expires_at with
      | none => rfl
      | some e => simpa using hall e hcase
  · exact length_filter_split _ table
  · exact List.mem_filter.mpr ⟨ha, by simp [is_expired_row, hnone]⟩
  · show ((cleanup table now).1.filter _, ((cleanup table now).1.filter _).length)
      = ((cleanup table now).1, 0)
    rw [show (cleanup table now).1
        = table.filter (fun a => !is_expired_row now a) from rfl,
      filter_not_idem, filter_pos_of_filter_not]
    rfl

/-- Witness for claim C3 at the `test_cleanup`-shaped table `demoTable`
read at time 10: the persistent row survives, the row count adds up, and
the immediately repeated cleanup removes nothing. -/
theorem cleanup_exact_witness :
    ({ demoAlias with expires_at := none } ∈ (cleanup demoTable 10).1) ∧
    (cleanup demoTable 10).2 + (cleanup demoTable 10).1.length
      = demoTable.length ∧
    cleanup (cleanup demoTable 10).1 10 = ((cleanup demoTable 10).1, 0) :=
  ⟨(cleanup_exact demoTable 10).2.2.1 _ (by decide) rfl,
   (cleanup_exact demoTable 10).2.1,
   (cleanup_exact demoTable 10).2.2.2⟩

/-- Claim C6: an alias saved through a handle configured with a
non-positive TTL is born already expired: immediately after the save
both lookups return none — through the saving handle and through every
other handle. -/
theorem nonpositive_ttl_born_expired (t : Int) (table table' : List Alias)
    (now : Int) (a : Alias) (st' : AliasStore)
    (hnp : t ≤ 0)
    (hsave : save { ttl := some t } table now a = .ok table') :
    get_by_value st' table' now a.value = none ∧
    get_by_alias st' table' now a.public_alias = none := by
  obtain ⟨htab, hnd⟩ := save_ok_inv _ _ _ _ _ hsave
  rw [show ((({ ttl := some t } : AliasStore)).ttl.map fun d => now + d)
      = some (now + t) from rfl] at htab
  subst htab
  rw [get_by_value_append_single st' table now
      { a with expires_at := some (now + t) } a.value rfl
      fun b hb => (hnd b hb).1,
    get_by_alias_append_single st' table now
      { a with expires_at := some (now + t) } a.public_alias rfl
      fun b hb => (hnd b hb).2]
  rcases st' with ⟨_ | t''⟩
  · simp [is_live]
  · simp [is_live]
    omega

/-- Witness for claim C6 at the `test_get_by_value_with_ttl_expired`
input: TTL -1, read right at save time through the saving handle. -/
theorem nonpositive_ttl_born_expired_witness :
    get_by_value { ttl := some (-1) }
        [{ demoAlias with expires_at := some (0 + (-1)) }] 0 demoAlias.value
      = none ∧
    get_by_alias { ttl := some (-1) }
        [{ demoAlias with expires_at := some (0 + (-1)) }] 0
        demoAlias.public_alias = none :=
  nonpositive_ttl_born_expired (-1) []
    [{ demoAlias with expires_at := some (0 + (-1)) }] 0 demoAlias
    { ttl := some (-1) } (by decide) rfl

/-- Claim C7: `save` fails with `DuplicateKeyError` whenever some stored
row — expired or not — already holds the saved alias's `value` or its
`public_alias`, and in that case no table results, so the existing
record is never silently overwritten. -/
theorem save_duplicate_rejected (store : AliasStore) (table : List Alias)
    (now : Int) (a b : Alias) (hb : b ∈ table)
    (hdup : b.value = a.value ∨ b.public_alias = a.public_alias) :
    save store table now a = .error .duplicateKeyError ∧
    ∀ table', save store table now a ≠ .ok table' := by
  have hany :
      table.any (fun c => c.value = a.value || c.public_alias = a.public_alias)
        = true := by
    simp only [List.any_eq_true]
    exact ⟨b, hb, by rcases hdup with h | h <;> simp [h]⟩
  have herr : save store table now a = .error .duplicateKeyError := by
    unfold save
    rw [if_pos hany]
  exact ⟨herr, fun table' hc => Except.noConfusion (herr ▸ hc)⟩

/-- Witness for claim C7: the stored row is already expired, the new
alias reuses its `value`, and the save is still rejected. -/
theorem save_duplicate_rejected_witness :
    save { ttl := none } [{ demoAlias with expires_at := some (-5) }] 0
        { demoAlias2 with value := demoAlias.value }
      = .error .duplicateKeyError :=
  (save_duplicate_rejected { ttl := none }
    [{ demoAlias with expires_at := some (-5) }] 0
    { demoAlias2 with value := demoAlias.value }
    { demoAlias with expires_at := some (-5) }
    (List.mem_singleton.mpr rfl) (Or.inl rfl)).1

/-- Claim C8: `get_by_value` matches solely on the `value` column and
`get_by_alias` solely on the `public_alias` column: a persistent alias
saved alone (its two keys distinct) is returned by both straight
lookups at any later time, while both cross lookups return none. -/
theorem lookup_columns_disjoint (a : Alias) (now T : Int)
    (table' : List Alias) (hne : a.value ≠ a.public_alias)
    (hsave : save { ttl := none } [] now a = .ok table') :
    get_by_value { ttl := none } table' T a.value
      = some { a with expires_at := none } ∧
    get_by_alias { ttl := none } table' T a.public_alias
      = some { a with expires_at := none } ∧
    get_by_value { ttl := none } table' T a.public_alias = none ∧
    get_by_alias { ttl := none } table' T a.value = none := by
  obtain ⟨htab, _⟩ := save_ok_inv _ _ _ _ _ hsave
  rw [show ((({ ttl := none } : AliasStore)).ttl.map fun d => now + d)
      = none from rfl] at htab
  subst htab
  refine ⟨?_, ?_, ?_, ?_⟩
  · rw [get_by_value_append_single { ttl := none } [] T
      { a with expires_at := none } a.value rfl (by simp)]
    simp [is_live]
  · rw [get_by_alias_append_single { ttl := none } [] T
      { a with expires_at := none } a.public_alias rfl (by simp)]
    simp [is_live]
  · exact get_by_value_append_miss { ttl := none } [] T
      { a with expires_at := none } a.public_alias hne (by simp)
  · exact get_by_alias_append_miss { ttl := none } [] T
      { a with expires_at := none } a.value (fun h => hne h.symm) (by simp)

/-- Witness for claim C8 at the `test_get_by_value` / `test_get_by_alias`
input shape: `value` and `public_<value>` keys, persistent save. -/
theorem lookup_columns_disjoint_witness :
    get_by_value { ttl := none } [{ demoAlias with expires_at := none }] 5
      demoAlias.value = some { demoAlias with expires_at := none } ∧
    get_by_value { ttl := none } [{ demoAlias with expires_at := none }] 5
      demoAlias.public_alias = none :=
  ⟨(lookup_columns_disjoint demoAlias 0 5
      [{ demoAlias with expires_at := none }] (by decide) rfl).1,
   (lookup_columns_disjoint demoAlias 0 5
      [{ demoAlias with expires_at := none }] (by decide) rfl).2.2.1⟩

/-! ## Configuration loader claim -/

/-- Overlaying any binding list containing an ill-typed binding fails,
whatever configuration it starts from. -/
theorem applyEntries_error_of_bad (k : String) (v : ConfigValue)
    (hbad : ∀ c, setField c k v = none) :
    ∀ (l : List (String × ConfigValue)), (k, v) ∈ l →
      ∀ c, applyEntries c l = .error .invalidConfigError := by
  intro l
  induction l with
  | nil => intro h; cases h
  | cons hd tl ih =>
    rcases hd with ⟨k', v'⟩
    intro hmem c
    rcases List.mem_cons.mp hmem with heq | hmem
    · injection heq with hk hv
      subst hk; subst hv
      simp only [applyEntries, hbad c]
    · cases hsf : setField c k' v' with
      | none => simp only [applyEntries, hsf]
      | some c' =>
        simp only [applyEntries, hsf]
        exact ih hmem c'

/-- Claim C10: `configure()` raises `InvalidConfigError` for every
invalid configuration input — a config file containing unparsable YAML,
a config-file field holding a value of the wrong type, or a wrongly
typed keyword argument — and never silently falls back to a
default-valued configuration in those cases. -/
theorem configure_invalid_rejected :
    (∀ kwargs, configure (some .malformed) kwargs
      = .error .invalidConfigError) ∧
    (∀ entries kwargs k v, (k, v) ∈ entries →
      (∀ c, setField c k v = none) →
      configure (some (.fields entries)) kwargs
        = .error .invalidConfigError) ∧
    (∀ fileDoc kwargs k v, (k, v) ∈ kwargs →
      (∀ c, setField c k v = none) →
      configure fileDoc kwargs = .error .invalidConfigError) := by
  refine ⟨fun kwargs => rfl, ?_, ?_⟩
  · intro entries kwargs k v hmem hbad
    show (match applyEntries defaultConfig entries with
        | Except.error e => Except.error e
        | Except.ok c => applyEntries c kwargs)
      = Except.error ConfigError.invalidConfigError
    rw [applyEntries_error_of_bad k v hbad entries hmem defaultConfig]
  · intro fileDoc kwargs k v hmem hbad
    rcases fileDoc with _ | doc
    · exact applyEntries_error_of_bad k v hbad kwargs hmem defaultConfig
    · rcases doc with _ | entries
      · rfl
      · show (match applyEntries defaultConfig entries with
            | Except.error e => Except.error e
            | Except.ok c => applyEntries c kwargs)
          = Except.error ConfigError.invalidConfigError
        cases happ : applyEntries defaultConfig entries with
        | error e => cases e; rfl
        | ok c => exact applyEntries_error_of_bad k v hbad kwargs hmem c

/-- Witness for claim C10 at the three test inputs: an unparsable file,
a file mapping `web_server_port` to a string, and a string
`web_server_port` keyword argument. -/
theorem configure_invalid_rejected_witness :
    configure (some .malformed) [] = .error .invalidConfigError ∧
    configure (some (.fields [("web_server_port", .str "invalid")])) []
      = .error .invalidConfigError ∧
    configure none [("web_server_port", .str "invalid")]
      = .error .invalidConfigError :=
  ⟨configure_invalid_rejected.1 [],
   configure_invalid_rejected.2.1 [("web_server_port", .str "invalid")] []
     "web_server_port" (.str "invalid") (List.mem_singleton.mpr rfl)
     (fun _ => rfl),
   configure_invalid_rejected.2.2 none [("web_server_port", .str "invalid")]
     "web_server_port" (.str "invalid") (List.mem_singleton.mpr rfl)
     (fun _ => rfl)⟩

end Satellite
